import Mathlib

/-!
Verification development for the anki-capture Modal processing app
(src/modal/app.py). The Python source is shallowly embedded: pure helper
functions become Lean functions over `String`/`List`/`ℚ`, the per-language
registry becomes an association list preserving dict insertion order, and
the orchestration pipeline becomes a pure function from abstract backend
behaviors to an execution record. Floating point arithmetic is modelled by
exact rationals; Python `str.lower()` is modelled by ASCII lowercasing
(all registry data compared through it is ASCII).
-/

namespace AnkiCapture

/-! ## Python string primitives -/

/-- Codepoints for which Python `str.isspace()` is true. -/
def pyIsSpace (c : Char) : Bool :=
  ([9, 10, 11, 12, 13, 28, 29, 30, 31, 32, 0x85, 0xA0, 0x1680,
    0x2000, 0x2001, 0x2002, 0x2003, 0x2004, 0x2005, 0x2006, 0x2007, 0x2008,
    0x2009, 0x200A, 0x2028, 0x2029, 0x202F, 0x205F, 0x3000] : List Nat).contains c.toNat

/-- Python `str.strip()` on a character list: drop whitespace from both ends. -/
def stripList (l : List Char) : List Char :=
  ((l.dropWhile pyIsSpace).reverse.dropWhile pyIsSpace).reverse

/-- Python `str.strip()`. -/
def pyStrip (s : String) : String := String.mk (stripList s.toList)

/-- Python `str.lower()` (ASCII model). -/
def pyLower (s : String) : String := String.map Char.toLower s

/-! ## Language Registry (`LANGUAGE_REGISTRY` in app.py) -/

structure LanguageConfig where
  code : String
  name : String
  locale_variants : List String
  script_range : Option (Nat × Nat)
  tts_code : String
  tts_voice_env_var : String
  whisper_names : List String
  vocab_instructions : String
deriving DecidableEq

/-- The registry as an association list, in dict insertion order
(`ru`, `ar`, `zh`, `es`, `ka`), which is also Python dict iteration order. -/
def LANGUAGE_REGISTRY : List (String × LanguageConfig) :=
  [("ru",
    { code := "ru"
      name := "Russian"
      locale_variants := ["ru", "rus", "russian"]
      script_range := some (0x0400, 0x04FF)
      tts_code := "ru-RU"
      tts_voice_env_var := "GCP_TTS_RU_VOICE"
      whisper_names := ["russian", "ru"]
      vocab_instructions := "For each significant word, provide word, root, meaning, gender, declension, notes for Russian." }),
   ("ar",
    { code := "ar"
      name := "Arabic"
      locale_variants := ["ar", "ara", "arabic"]
      script_range := some (0x0600, 0x06FF)
      tts_code := "ar-XA"
      tts_voice_env_var := "GCP_TTS_AR_VOICE"
      whisper_names := ["arabic", "ar"]
      vocab_instructions := "For each significant word, provide word, root, meaning, gender, declension, notes for Arabic." }),
   ("zh",
    { code := "zh"
      name := "Chinese"
      locale_variants := ["zh", "zho", "chi", "chinese"]
      script_range := some (0x4E00, 0x9FFF)
      tts_code := "zh-CN"
      tts_voice_env_var := "GCP_TTS_ZH_VOICE"
      whisper_names := ["chinese", "zh"]
      vocab_instructions := "For each significant word or phrase, provide word, root as pinyin, meaning, gender, declension, notes for Chinese." }),
   ("es",
    { code := "es"
      name := "Spanish"
      locale_variants := ["es", "spa", "spanish"]
      script_range := some (0x0020, 0x024F)
      tts_code := "es-ES"
      tts_voice_env_var := "GCP_TTS_ES_VOICE"
      whisper_names := ["spanish", "es"]
      vocab_instructions := "For each significant word, provide word, root, meaning, gender, declension, notes for Spanish." }),
   ("ka",
    { code := "ka"
      name := "Georgian"
      locale_variants := ["ka", "kat", "geo", "georgian"]
      script_range := some (0x10A0, 0x10FF)
      tts_code := "ka-GE"
      tts_voice_env_var := "GCP_TTS_KA_VOICE"
      whisper_names := ["georgian", "ka"]
      vocab_instructions := "For each significant word, provide word, root, meaning, gender, declension, notes for Georgian." })]

/-- `get_language_config` in app.py: dict lookup by code. -/
def get_language_config (code : String) : Option LanguageConfig :=
  List.lookup code LANGUAGE_REGISTRY

/-- `get_supported_languages` in app.py. -/
def get_supported_languages : List String := LANGUAGE_REGISTRY.map (fun p => p.1)

/-! ## OCR text filtering functions -/

/-- `map_locale_to_language` in app.py: for each registry entry in order,
try exact lowercased variant match, then a first-2-characters match
against the first 2 characters of each variant. -/
def map_locale_to_language (locale : String) : Option String :=
  if locale = "" then none
  else
    let locale_lower := pyLower locale
    (LANGUAGE_REGISTRY.find? (fun p =>
      (p.2.locale_variants.map pyLower).contains locale_lower
        || (p.2.locale_variants.map (fun v => pyLower (v.take 2))).contains
            (locale_lower.take 2))).map (fun p => p.1)

/-- `detect_script` in app.py. Note the numerator counts every character
whose codepoint lies in the range (whitespace included), while the
denominator counts only non-whitespace characters; this mirrors the
source exactly. -/
def detect_script (text : String) (target_lang : String) : Bool :=
  if pyStrip text = "" then false
  else
    match (get_language_config target_lang).bind (fun config => config.script_range) with
    | none => false
    | some target_range =>
      let target_chars :=
        (text.toList.filter
          (fun c => target_range.1 ≤ c.toNat && c.toNat ≤ target_range.2)).length
      let total_chars := (text.toList.filter (fun c => !pyIsSpace c)).length
      if total_chars = 0 then false
      else decide ((target_chars : ℚ) / (total_chars : ℚ) > 0.5)

/-- `is_ui_noise` in app.py: membership of the trimmed lowercased text in
the fixed English UI pattern set. -/
def is_ui_noise (text : String) : Bool :=
  (["menu", "back", "home", "login", "logout", "next", "prev",
    "share", "save", "cancel", "ok", "yes", "no", "settings",
    "help", "about", "close", "exit", "more", "less", "view",
    "edit", "delete", "add", "search", "filter", "sort"] : List String).contains
    (pyLower (pyStrip text))

/-! ## Segments and line reconstruction -/

structure Vertex where
  x : ℤ
  y : ℤ
deriving DecidableEq

/-- A Vision API text annotation: `description`, optional `locale`
(the empty string models an absent or empty locale, both falsy in
Python), and the vertices of `bounding_poly` (the empty list models a
missing polygon). -/
structure Segment where
  description : String
  locale : String
  vertices : List Vertex
deriving DecidableEq

/-- The `avg_y` helper inside `reconstruct_with_lines`. -/
def avg_y (s : Segment) : ℚ :=
  if s.vertices.isEmpty then 0
  else ((s.vertices.map (fun v => v.y)).sum : ℚ) / (s.vertices.length : ℚ)

/-- The `avg_x` helper inside `reconstruct_with_lines`. -/
def avg_x (s : Segment) : ℚ :=
  if s.vertices.isEmpty then 0
  else ((s.vertices.map (fun v => v.x)).sum : ℚ) / (s.vertices.length : ℚ)

/-- An index paired with its segment and the averaged coordinates,
mirroring the tuples `(i, segments[i], avg_y(...), avg_x(...))`. -/
abbrev SegPos := ℕ × Segment × ℚ × ℚ

def segPosY (p : SegPos) : ℚ := p.2.2.1

def segPosX (p : SegPos) : ℚ := p.2.2.2

def segPosDesc (p : SegPos) : String := p.2.1.description

/-- `kept_segments` in `reconstruct_with_lines`: look up each filtered
index. The filter always supplies in-range indices; out-of-range
indices are dropped. -/
def keptWithPos (segments : List Segment) (filtered : List ℕ) : List SegPos :=
  filtered.filterMap (fun i =>
    (segments.get? i).map (fun s => (i, s, avg_y s, avg_x s)))

/-- The sort key order `(y, x)` used by `kept_segments.sort`. Python list
sort is stable ascending; a stable insertion sort over this total
lexicographic order models it. -/
def segPosLE (a b : SegPos) : Prop :=
  segPosY a < segPosY b ∨ (segPosY a = segPosY b ∧ segPosX a ≤ segPosX b)

instance : DecidableRel segPosLE := fun a b => by
  unfold segPosLE; infer_instance

/-- The grouping loop of `reconstruct_with_lines`: `prev` is `prev_y`,
`current` is `current_line` (descriptions already collected); returns
the completed `lines` list. -/
def linesLoop : Option ℚ → List String → List SegPos → List String
  | _, current, [] => if current.isEmpty then [] else [String.intercalate " " current]
  | none, current, item :: rest =>
    linesLoop (some (segPosY item)) (current ++ [segPosDesc item]) rest
  | some py, current, item :: rest =>
    if |segPosY item - py| < 20 then
      linesLoop (some (segPosY item)) (current ++ [segPosDesc item]) rest
    else
      (if current.isEmpty then [] else [String.intercalate " " current])
        ++ linesLoop (some (segPosY item)) [segPosDesc item] rest

/-- `reconstruct_with_lines` in app.py. -/
def reconstruct_with_lines (segments : List Segment) (filtered : List ℕ) : String :=
  if segments.isEmpty || filtered.isEmpty then ""
  else
    String.intercalate "\n"
      (linesLoop none [] ((keptWithPos segments filtered).insertionSort segPosLE))

/-! ## Confidence -/

/-- `calculate_confidence` in app.py. -/
def calculate_confidence (total_segments kept_segments : ℕ)
    (original_locale target_lang : String) : ℚ :=
  if total_segments = 0 then 0.5
  else
    let match_ratio : ℚ := (kept_segments : ℚ) / (total_segments : ℚ)
    let locale_match := map_locale_to_language original_locale = some target_lang
    let confidence := match_ratio * 0.8 + (if locale_match then 0.2 else 0.0)
    max 0.5 (min 0.99 confidence)

/-! ## The segment filter -/

/-- The per-segment keep decision of the loop in
`filter_target_language_segments`: skip empty trimmed text, then the
locale stage, then the script stage; nothing else adds an index. -/
def keepSegment (s : Segment) (target_lang : String) : Bool :=
  let text := pyStrip s.description
  if text = "" then false
  else if s.locale ≠ "" && decide (map_locale_to_language s.locale = some target_lang) then
    true
  else detect_script text target_lang

/-- The set `filtered_indices` built by the loop, as the ascending list
of indices the loop adds (Python iterates `enumerate(segments)` in
order). -/
def filterIndices (segments : List Segment) (target_lang : String) : List ℕ :=
  (List.range segments.length).filter (fun i =>
    match segments.get? i with
    | some s => keepSegment s target_lang
    | none => false)

/-- `filter_target_language_segments` in app.py. `texts.head?` is the
full-document annotation, the tail the per-word segments. -/
def filter_target_language_segments (texts : List Segment) (target_lang : String) :
    String × ℚ :=
  match texts with
  | [] => ("", 0.5)
  | [t0] => (pyStrip t0.description, 0.5)
  | t0 :: segments =>
    let total_segments := segments.length
    let filtered_indices := filterIndices segments target_lang
    let filtered_text := reconstruct_with_lines segments filtered_indices
    let original_locale := t0.locale
    let confidence :=
      calculate_confidence total_segments filtered_indices.length
        original_locale target_lang
    (filtered_text, confidence)

/-- The pure tail of `ocr_image` in app.py: everything after the Vision
call, as a function of the returned `text_annotations`. -/
def ocr_image_result (texts : List Segment) : String × Option String × ℚ :=
  match texts with
  | [] => ("", none, 0)
  | t0 :: _ =>
    let original_locale := t0.locale
    let detected_lang := map_locale_to_language original_locale
    match detected_lang with
    | some lang =>
      let fr := filter_target_language_segments texts lang
      if fr.1 = "" ∨ fr.1.length < 5 then (pyStrip t0.description, some lang, 0.5)
      else (fr.1, some lang, fr.2)
    | none => (pyStrip t0.description, none, 0.5)

/-! ## Spec-side stage predicates

These definitions follow the wording of the specification sentences, to
be compared with the embedded code above. -/

/-- Locale stage of the spec: the segment carries a locale hint that the
alias lookup maps to exactly the target language code. -/
def localeStageB (s : Segment) (target_lang : String) : Bool :=
  s.locale ≠ "" && decide (map_locale_to_language s.locale = some target_lang)

/-- Script stage exactly as the claim words it: the fraction of the
non-whitespace characters of the trimmed segment text whose codepoint
lies in the target profile scriptRange exceeds 0.5. -/
def scriptStageSpecB (s : Segment) (target_lang : String) : Bool :=
  match (get_language_config target_lang).bind (fun config => config.script_range) with
  | none => false
  | some r =>
    let nonws := (pyStrip s.description).toList.filter (fun c => !pyIsSpace c)
    let in_range := (nonws.filter (fun c => r.1 ≤ c.toNat && c.toNat ≤ r.2)).length
    decide (((in_range : ℚ) / (nonws.length : ℚ)) > 0.5)

/-- Script stage as the code actually computes it (the amended claim):
the numerator counts every character of the trimmed text whose
codepoint lies in the scriptRange, whitespace included, while the
denominator counts only the non-whitespace characters. -/
def scriptStageAmendedB (s : Segment) (target_lang : String) : Bool :=
  match (get_language_config target_lang).bind (fun config => config.script_range) with
  | none => false
  | some r =>
    let t := pyStrip s.description
    let chars_in_range := (t.toList.filter (fun c => r.1 ≤ c.toNat && c.toNat ≤ r.2)).length
    let non_ws := (t.toList.filter (fun c => !pyIsSpace c)).length
    decide (non_ws ≠ 0 ∧ ((chars_in_range : ℚ) / (non_ws : ℚ)) > 0.5)

/-- Spec-side line reconstruction, parameterized by the same-line
predicate applied to the previous and current vertical centroids:
sort kept segments by ascending vertical then horizontal centroid and
group consecutive ones, joining lines with spaces and the result with
line breaks. -/
def gapGroupsAux (sameLine : ℚ → ℚ → Bool) (py : ℚ) (cur : List SegPos) :
    List SegPos → List (List SegPos)
  | [] => [cur]
  | a :: rest =>
    if sameLine py (segPosY a) then gapGroupsAux sameLine (segPosY a) (cur ++ [a]) rest
    else cur :: gapGroupsAux sameLine (segPosY a) [a] rest

def gapGroups (sameLine : ℚ → ℚ → Bool) : List SegPos → List (List SegPos)
  | [] => []
  | a :: rest => gapGroupsAux sameLine (segPosY a) [a] rest

def reconstructGrouped (sameLine : ℚ → ℚ → Bool) (segments : List Segment)
    (filtered : List ℕ) : String :=
  if segments.isEmpty || filtered.isEmpty then ""
  else
    String.intercalate "\n"
      ((gapGroups sameLine ((keptWithPos segments filtered).insertionSort segPosLE)).map
        (fun g => String.intercalate " " (g.map segPosDesc)))

/-! ## Helper lemmas -/

lemma stripList_eq_nil_iff (l : List Char) :
    stripList l = [] ↔ ∀ c ∈ l, pyIsSpace c = true := by
  unfold stripList
  constructor
  · intro h c hc
    rw [List.reverse_eq_nil_iff, List.dropWhile_eq_nil_iff] at h
    by_contra hns
    have hmem : c ∈ l.dropWhile pyIsSpace := by
      have hsplit := List.takeWhile_append_dropWhile (p := pyIsSpace) (l := l)
      rw [← hsplit] at hc
      rcases List.mem_append.mp hc with h1 | h2
      · exact absurd (List.mem_takeWhile_imp h1) hns
      · exact h2
    exact hns (h c (List.mem_reverse.mpr hmem))
  · intro h
    have h1 : l.dropWhile pyIsSpace = [] := List.dropWhile_eq_nil_iff.mpr h
    simp [h1]

lemma pyStrip_eq_empty_iff (s : String) :
    pyStrip s = "" ↔ ∀ c ∈ s.toList, pyIsSpace c = true := by
  unfold pyStrip
  rw [show ("" : String) = String.mk [] from rfl]
  constructor
  · intro h
    exact (stripList_eq_nil_iff s.toList).mp (by injection h)
  · intro h
    rw [(stripList_eq_nil_iff s.toList).mpr h]

lemma dropWhile_head_false {α : Type} {p : α → Bool} {l : List α} {a : α} {t : List α}
    (h : l.dropWhile p = a :: t) : p a = false := by
  induction l with
  | nil => simp at h
  | cons b bs ih =>
    rw [List.dropWhile_cons] at h
    by_cases hb : p b = true
    · rw [if_pos hb] at h
      exact ih h
    · rw [if_neg hb] at h
      injection h with h1 _
      rw [← h1]
      simpa using hb

lemma exists_not_space_of_stripList_ne_nil {l : List Char} (h : stripList l ≠ []) :
    ∃ c ∈ stripList l, pyIsSpace c = false := by
  have h2 : (l.dropWhile pyIsSpace).reverse.dropWhile pyIsSpace ≠ [] := by
    intro hnil
    apply h
    unfold stripList
    rw [hnil]
    rfl
  obtain ⟨a, t, hm⟩ := List.exists_cons_of_ne_nil h2
  refine ⟨a, ?_, dropWhile_head_false hm⟩
  unfold stripList
  rw [hm]
  simp

lemma toList_pyStrip (s : String) : (pyStrip s).toList = stripList s.toList := rfl

lemma pyStrip_pyStrip_ne {s : String} (h : pyStrip s ≠ "") : pyStrip (pyStrip s) ≠ "" := by
  intro he
  have hall := (pyStrip_eq_empty_iff (pyStrip s)).mp he
  rw [toList_pyStrip] at hall
  have hne : stripList s.toList ≠ [] := by
    intro hnil
    exact h ((pyStrip_eq_empty_iff s).mpr ((stripList_eq_nil_iff s.toList).mp hnil))
  obtain ⟨c, hc, hcs⟩ := exists_not_space_of_stripList_ne_nil hne
  rw [hall c hc] at hcs
  exact Bool.noConfusion hcs

lemma total_chars_ne_zero {s : String} (h : pyStrip s ≠ "") :
    ((pyStrip s).toList.filter (fun c => !pyIsSpace c)).length ≠ 0 := by
  have hne : stripList s.toList ≠ [] := by
    intro hnil
    exact h ((pyStrip_eq_empty_iff s).mpr ((stripList_eq_nil_iff s.toList).mp hnil))
  obtain ⟨c, hc, hcs⟩ := exists_not_space_of_stripList_ne_nil hne
  have : c ∈ (pyStrip s).toList.filter (fun c => !pyIsSpace c) := by
    rw [toList_pyStrip]
    exact List.mem_filter.mpr ⟨hc, by simp [hcs]⟩
  intro hz
  rw [List.length_eq_zero] at hz
  rw [hz] at this
  exact List.not_mem_nil c this

lemma mem_filterIndices (segments : List Segment) (target_lang : String) (i : ℕ) :
    i ∈ filterIndices segments target_lang ↔
      ∃ h : i < segments.length, keepSegment (segments.get ⟨i, h⟩) target_lang = true := by
  unfold filterIndices
  rw [List.mem_filter, List.mem_range]
  constructor
  · rintro ⟨h, hk⟩
    refine ⟨h, ?_⟩
    rw [List.get?_eq_get h] at hk
    exact hk
  · rintro ⟨h, hk⟩
    refine ⟨h, ?_⟩
    rw [List.get?_eq_get h]
    exact hk

lemma detect_script_strip_eq (s : Segment) (target_lang : String)
    (hne : pyStrip s.description ≠ "") :
    detect_script (pyStrip s.description) target_lang = scriptStageAmendedB s target_lang := by
  unfold detect_script scriptStageAmendedB
  rw [if_neg (pyStrip_pyStrip_ne hne)]
  cases (get_language_config target_lang).bind (fun config => config.script_range) with
  | none => rfl
  | some r =>
    have hn := total_chars_ne_zero hne
    simp only []
    rw [if_neg hn, decide_eq_decide]
    exact ⟨fun hq => ⟨hn, hq⟩, fun hq => hq.2⟩

lemma keep_iff_stages (s : Segment) (target_lang : String)
    (hne : pyStrip s.description ≠ "") :
    keepSegment s target_lang = true ↔
      (localeStageB s target_lang = true ∨ scriptStageAmendedB s target_lang = true) := by
  unfold keepSegment localeStageB
  rw [if_neg hne]
  by_cases hl : (s.locale ≠ "" && decide (map_locale_to_language s.locale = some target_lang)) = true
  · rw [if_pos hl]
    exact iff_of_true rfl (Or.inl hl)
  · rw [if_neg hl, detect_script_strip_eq s target_lang hne]
    constructor
    · exact fun hs => Or.inr hs
    · rintro (hloc | hs)
      · exact absurd hloc hl
      · exact hs

lemma strip_ne_empty_of_ui_noise {s : String} (h : is_ui_noise s = true) :
    pyStrip s ≠ "" := by
  intro he
  unfold is_ui_noise at h
  rw [he] at h
  revert h
  with_unfolding_all decide

lemma linesLoop_eq_gapGroupsAux (l : List SegPos) (py : ℚ) (g : List SegPos) (hg : g ≠ []) :
    linesLoop (some py) (g.map segPosDesc) l
      = (gapGroupsAux (fun p y => decide (|y - p| < 20)) py g l).map
          (fun g2 => String.intercalate " " (g2.map segPosDesc)) := by
  induction l generalizing py g with
  | nil =>
    have hmap : (g.map segPosDesc).isEmpty = false := by
      cases g with
      | nil => exact absurd rfl hg
      | cons b t => rfl
    unfold linesLoop gapGroupsAux
    rw [hmap]
    rfl
  | cons a rest ih =>
    unfold linesLoop gapGroupsAux
    by_cases hy : |segPosY a - py| < 20
    · rw [if_pos hy,
        if_pos (show ((fun p y => decide (|y - p| < 20)) py (segPosY a)) = true by simpa using hy)]
      have h2 := ih (segPosY a) (g ++ [a]) (by simp)
      rw [List.map_append] at h2
      exact h2
    · rw [if_neg hy,
        if_neg (show ¬ ((fun p y => decide (|y - p| < 20)) py (segPosY a)) = true by simpa using hy)]
      have hmap : (g.map segPosDesc).isEmpty = false := by
        cases g with
        | nil => exact absurd rfl hg
        | cons b t => rfl
      rw [hmap]
      rw [show (if (false = true) then ([] : List String)
            else [String.intercalate " " (g.map segPosDesc)])
          = [String.intercalate " " (g.map segPosDesc)] from by simp]
      rw [List.singleton_append]
      have h2 := ih (segPosY a) [a] (by simp)
      simp only [List.map_cons, List.map_nil] at h2
      rw [h2]
      simp [List.map_cons]

lemma reconstruct_eq_grouped (segments : List Segment) (filtered : List ℕ) :
    reconstruct_with_lines segments filtered
      = reconstructGrouped (fun p y => decide (|y - p| < 20)) segments filtered := by
  unfold reconstruct_with_lines reconstructGrouped
  by_cases he : (segments.isEmpty || filtered.isEmpty) = true
  · rw [if_pos he, if_pos he]
  · rw [if_neg he, if_neg he]
    generalize (keptWithPos segments filtered).insertionSort segPosLE = sorted
    cases sorted with
    | nil => rfl
    | cons a rest =>
      show String.intercalate "\n" (linesLoop none [] (a :: rest)) = _
      rw [show linesLoop none [] (a :: rest)
            = linesLoop (some (segPosY a)) ([] ++ [segPosDesc a]) rest from rfl]
      rw [show ([] : List String) ++ [segPosDesc a] = [segPosDesc a] from rfl]
      rw [show gapGroups (fun p y => decide (|y - p| < 20)) (a :: rest)
            = gapGroupsAux (fun p y => decide (|y - p| < 20)) (segPosY a) [a] rest from rfl]
      have h2 := linesLoop_eq_gapGroupsAux rest (segPosY a) [a] (by simp)
      simp only [List.map_cons, List.map_nil] at h2
      rw [h2]

/-! ## Concrete inputs for counterexamples and witnesses -/

/-- Segment whose trimmed text is one Cyrillic letter word, a space and a
Latin letter: exactly half of its non-whitespace characters are Latin,
but the internal space also lies in the Spanish script range. -/
def segC1 : Segment := { description := "я a", locale := "", vertices := [⟨0, 0⟩] }

/-- Segment for the C1 witness: a plain Cyrillic word. -/
def segC1W : Segment := { description := "мир", locale := "", vertices := [⟨0, 0⟩] }

/-- Two single-point segments whose vertical centroids differ by exactly
20 units. -/
def segC3a : Segment := { description := "a", locale := "", vertices := [⟨0, 0⟩] }

def segC3b : Segment := { description := "b", locale := "", vertices := [⟨0, 20⟩] }

/-- Full-text annotation and single segment for the C4 counterexample. -/
def t0C4 : Segment := { description := "привет мир", locale := "ru", vertices := [] }

def segC4 : Segment := { description := "привет", locale := "ru", vertices := [⟨0, 0⟩] }

/-- Full-text annotation and single UI-term segment for the C5
counterexample: the segment text is the UI term menu, which the script
stage keeps for target language es. -/
def t0C5 : Segment := { description := "menu hola", locale := "", vertices := [] }

def segC5 : Segment := { description := "menu", locale := "", vertices := [⟨0, 0⟩] }

/-- UI-term segment with a Russian locale hint, for the C5 witness. -/
def segC5W : Segment := { description := "menu", locale := "ru", vertices := [⟨0, 0⟩] }

/-- Inputs for the C6 witness: the filtered text is two characters long,
which triggers the fallback. -/
def t0C6 : Segment := { description := "привет мир", locale := "ru", vertices := [] }

def segC6 : Segment := { description := "да", locale := "ru", vertices := [⟨0, 0⟩] }

/-! ## Claim C1 -/

/-- Claim C1 counterexample: with target language es, the filter keeps the
segment with trimmed text consisting of a Cyrillic letter, a space and a
Latin letter, although the locale stage does not keep it and the claimed
script fraction (in-range non-whitespace characters over non-whitespace
characters) is exactly one half, hence not above one half. The claimed
keep-iff-stages equivalence therefore fails at this input. -/
theorem ankiC1_counterexample :
    filterIndices [segC1] "es" = [0]
    ∧ localeStageB segC1 "es" = false
    ∧ scriptStageSpecB segC1 "es" = false :=
  ⟨by with_unfolding_all rfl, by with_unfolding_all rfl, by with_unfolding_all rfl⟩

/-- Claim C1 (amended): a segment with non-empty trimmed text is kept by
the filter if and only if the locale stage keeps it or the script stage
keeps it, where the script-stage fraction has as numerator the count of
all characters of the trimmed text inside the scriptRange (whitespace
included) and as denominator the count of its non-whitespace
characters. A segment kept by the locale stage is not evaluated by the
script stage. -/
theorem ankiC1_amended (segments : List Segment) (target_lang : String) (i : ℕ)
    (h : i < segments.length)
    (hne : pyStrip (segments.get ⟨i, h⟩).description ≠ "") :
    i ∈ filterIndices segments target_lang ↔
      (localeStageB (segments.get ⟨i, h⟩) target_lang = true
        ∨ scriptStageAmendedB (segments.get ⟨i, h⟩) target_lang = true) := by
  rw [mem_filterIndices]
  constructor
  · rintro ⟨h2, hk⟩
    exact (keep_iff_stages _ _ hne).mp hk
  · intro hs
    exact ⟨h, (keep_iff_stages _ _ hne).mpr hs⟩

/-- Claim C1 witness: the amended equivalence applied to a concrete
Cyrillic segment and target language ru. -/
theorem ankiC1_witness :
    pyStrip segC1W.description ≠ ""
    ∧ (0 ∈ filterIndices [segC1W] "ru" ↔
        (localeStageB segC1W "ru" = true ∨ scriptStageAmendedB segC1W "ru" = true)) :=
  ⟨by with_unfolding_all decide,
   ankiC1_amended [segC1W] "ru" 0 (by decide) (by with_unfolding_all decide)⟩

/-! ## Claim C2 -/

/-- Claim C2: for a run with positive total, the confidence equals
0.8 times the kept ratio, plus 0.2 exactly when the document-level
locale maps to the target language, clamped to the interval
[0.5, 0.99]; and the confidence always lies in [0.5, 0.99]. -/
theorem ankiC2 (total_segments kept_segments : ℕ) (original_locale target_lang : String) :
    (0 < total_segments →
      calculate_confidence total_segments kept_segments original_locale target_lang
        = max 0.5 (min 0.99 (0.8 * ((kept_segments : ℚ) / (total_segments : ℚ))
            + (if map_locale_to_language original_locale = some target_lang
                then 0.2 else 0))))
    ∧ 0.5 ≤ calculate_confidence total_segments kept_segments original_locale target_lang
    ∧ calculate_confidence total_segments kept_segments original_locale target_lang ≤ 0.99 := by
  simp only [calculate_confidence]
  by_cases h : total_segments = 0
  · rw [if_pos h]
    exact ⟨fun hpos => absurd h (Nat.pos_iff_ne_zero.mp hpos), le_refl _, by norm_num⟩
  · rw [if_neg h]
    refine ⟨fun _ => ?_, le_max_left _ _, max_le (by norm_num) (min_le_left _ _)⟩
    congr 2
    rw [mul_comm]
    norm_num

/-- Claim C2 witness: the formula instantiated at two segments with one
kept and a matching document locale. -/
theorem ankiC2_witness :
    0 < 2 ∧ calculate_confidence 2 1 "ru" "ru"
      = max 0.5 (min 0.99 (0.8 * (((1 : ℕ) : ℚ) / ((2 : ℕ) : ℚ))
          + (if map_locale_to_language "ru" = some "ru" then 0.2 else 0))) :=
  ⟨by decide, (ankiC2 2 1 "ru" "ru").1 (by decide)⟩

/-! ## Claim C3 -/

/-- Claim C3 counterexample: two kept segments whose vertical centroids
differ by exactly 20 units. The code starts a new line (the gap is not
strictly below 20), while the claim, which starts a new line only for
differences of more than 20 units, would join them on one line. -/
theorem ankiC3_counterexample :
    reconstruct_with_lines [segC3a, segC3b] [0, 1] = "a\nb"
    ∧ reconstructGrouped (fun p y => decide (|y - p| ≤ 20)) [segC3a, segC3b] [0, 1]
        = "a b" :=
  ⟨by with_unfolding_all rfl, by with_unfolding_all rfl⟩

/-- Claim C3 (amended): reconstruction sorts kept segments by ascending
vertical centroid then ascending horizontal centroid (average
coordinates of the bounding polygon vertices), starts a new line
exactly when the vertical centroid differs from that of the previous
kept segment by 20 units or more (a strictly smaller difference joins
with a single space), and joins lines with a line break in sorted
order. -/
theorem ankiC3_amended (segments : List Segment) (filtered : List ℕ) :
    reconstruct_with_lines segments filtered
      = reconstructGrouped (fun p y => decide (|y - p| < 20)) segments filtered :=
  reconstruct_eq_grouped segments filtered

/-! ## Claim C4 -/

/-- Claim C4 counterexample: an input with exactly one segment is
filtered normally, not returned verbatim with confidence 0.5: here the
single Russian segment is kept, the document locale matches, and the
returned confidence is 0.99. -/
theorem ankiC4_counterexample :
    filter_target_language_segments [t0C4, segC4] "ru" = ("привет", 0.99)
    ∧ (filter_target_language_segments [t0C4, segC4] "ru").2 ≠ 0.5 :=
  ⟨by with_unfolding_all rfl, by with_unfolding_all decide⟩

/-- Claim C4 (amended): only an input with zero segments (an annotation
list with at most the full-text entry) short-circuits: the empty list
returns the empty string with confidence 0.5 and a list holding only
the full-text annotation returns its trimmed text with confidence 0.5,
with no filtering performed. An input with exactly one segment is
filtered normally. -/
theorem ankiC4_amended :
    (∀ target_lang : String, filter_target_language_segments [] target_lang = ("", 0.5))
    ∧ ∀ (t0 : Segment) (target_lang : String),
        filter_target_language_segments [t0] target_lang = (pyStrip t0.description, 0.5) :=
  ⟨fun _ => rfl, fun _ _ => rfl⟩

/-! ## Claim C5 -/

/-- Claim C5 counterexample: the segment text menu is a UI term, yet with
target language es the script stage keeps it (every character is in the
Latin range), so the filter keeps it and it appears in the output text,
contradicting the claim that UI terms are always discarded. -/
theorem ankiC5_counterexample :
    is_ui_noise segC5.description = true
    ∧ filter_target_language_segments [t0C5, segC5] "es" = ("menu", 0.8) :=
  ⟨by with_unfolding_all rfl, by with_unfolding_all rfl⟩

/-- Claim C5 (amended): a segment whose trimmed lowercased text is one of
the fixed UI terms is discarded only when neither the locale stage nor
the script stage keeps it; the UI-noise set is never consulted by the
filter and does not override those stages. -/
theorem ankiC5_amended (segments : List Segment) (target_lang : String) (i : ℕ)
    (h : i < segments.length)
    (hnoise : is_ui_noise (segments.get ⟨i, h⟩).description = true) :
    i ∈ filterIndices segments target_lang ↔
      (localeStageB (segments.get ⟨i, h⟩) target_lang = true
        ∨ scriptStageAmendedB (segments.get ⟨i, h⟩) target_lang = true) := by
  rw [mem_filterIndices]
  have hne := strip_ne_empty_of_ui_noise hnoise
  constructor
  · rintro ⟨h2, hk⟩
    exact (keep_iff_stages _ _ hne).mp hk
  · intro hs
    exact ⟨h, (keep_iff_stages _ _ hne).mpr hs⟩

/-- Claim C5 witness: the amended equivalence applied to a UI-term
segment carrying a Russian locale hint, with target language ru. -/
theorem ankiC5_witness :
    is_ui_noise segC5W.description = true
    ∧ (0 ∈ filterIndices [segC5W] "ru" ↔
        (localeStageB segC5W "ru" = true ∨ scriptStageAmendedB segC5W "ru" = true)) :=
  ⟨by with_unfolding_all rfl,
   ankiC5_amended [segC5W] "ru" 0 (by decide) (by with_unfolding_all rfl)⟩

/-! ## Claim C6 -/

/-- Claim C6: in the image extraction, when a language was detected and
the filtered text is empty or shorter than 5 characters, the caller
substitutes the trimmed unfiltered full text and sets the confidence to
exactly 0.5, whatever confidence the filter computed. -/
theorem ankiC6 (t0 : Segment) (rest : List Segment) (lang : String)
    (hdet : map_locale_to_language t0.locale = some lang)
    (hshort : (filter_target_language_segments (t0 :: rest) lang).1 = ""
      ∨ (filter_target_language_segments (t0 :: rest) lang).1.length < 5) :
    ocr_image_result (t0 :: rest) = (pyStrip t0.description, some lang, 0.5) := by
  simp only [ocr_image_result]
  rw [hdet]
  simp only []
  rw [if_pos hshort]

/-- Claim C6 witness: the fallback applied to a document whose only kept
segment is two characters long. -/
theorem ankiC6_witness :
    map_locale_to_language t0C6.locale = some "ru"
    ∧ ((filter_target_language_segments [t0C6, segC6] "ru").1 = ""
        ∨ (filter_target_language_segments [t0C6, segC6] "ru").1.length < 5)
    ∧ ocr_image_result [t0C6, segC6] = ("привет мир", some "ru", 0.5) :=
  ⟨by with_unfolding_all rfl,
   Or.inr (by with_unfolding_all decide),
   ankiC6 t0C6 [segC6] "ru" (by with_unfolding_all rfl)
     (Or.inr (by with_unfolding_all decide))⟩

/-! ## Breakdown generation (`generate_breakdown` in app.py)

The language-model backend is abstracted as a sequence of three attempt
outcomes: a parsed JSON object (modelled by its key set), a JSON parse
failure, or any other raised error. -/

/-- A parsed JSON object, modelled by the list of its top-level keys. -/
structure LLMObject where
  keys : List String
deriving DecidableEq

/-- One outcome of calling the language-model backend and parsing its
reply. -/
inductive LLMResponse where
  | parsed (o : LLMObject)
  | parseFailure (msg : String)
  | raised (msg : String)
deriving DecidableEq

/-- The validation line of `generate_breakdown`: all four required fields
must be present. -/
def hasRequiredFields (o : LLMObject) : Bool :=
  (["transliteration", "translation", "grammar_notes", "vocab_breakdown"] : List String).all
    (fun k => o.keys.contains k)

/-- The body of one loop iteration of `generate_breakdown`: a parsed
object is returned when it has all required fields and otherwise raises
the missing-fields error; parse failures and other errors propagate. -/
def attemptOutcome : LLMResponse → Except String LLMObject
  | .parsed o =>
    if hasRequiredFields o then .ok o else .error "Missing required fields in response"
  | .parseFailure msg => .error msg
  | .raised msg => .error msg

/-- The final iteration (attempt index 2) of `generate_breakdown`: a parse
failure is re-raised wrapped in the parse-error message, any other error
is re-raised as is. -/
def finalRaise : LLMResponse → Except String LLMObject
  | .parsed o =>
    if hasRequiredFields o then .ok o else .error "Missing required fields in response"
  | .parseFailure msg => .error ("Failed to parse LLM response as JSON: " ++ msg)
  | .raised msg => .error msg

/-- The retry loop of `generate_breakdown` over the three attempt
responses: errors of the first two attempts are swallowed and the next
attempt runs; the third attempt raises. -/
def generate_breakdown_model (r : Fin 3 → LLMResponse) : Except String LLMObject :=
  match attemptOutcome (r 0) with
  | .ok o => .ok o
  | .error _ =>
    match attemptOutcome (r 1) with
    | .ok o => .ok o
    | .error _ => finalRaise (r 2)

/-! ## Pipeline orchestration (`process_upload` in app.py)

The remote backends (transcription, OCR, breakdown, TTS, webhook POST)
are abstracted as functions supplied in a `Backends` record; each can
return a value or raise an error message. The run result records the
webhook posts, which stages were invoked, the result of an error-envelope
delivery attempt, and the exception the coroutine re-raises (if any).
Base64 encoding of the synthesized audio is modelled as the identity on
the abstract audio value. -/

inductive SourceType where
  | image
  | audio
  | text
deriving DecidableEq

structure TranscribeResult where
  text : String
  language : String
  confidence : ℚ
deriving DecidableEq

structure OcrResult where
  text : String
  language : Option String
  confidence : ℚ
deriving DecidableEq

/-- The four fields `generate_breakdown` returns; the vocabulary array is
kept opaque as a string. -/
structure Breakdown where
  transliteration : String
  translation : String
  grammar_notes : String
  vocab_breakdown : String
deriving DecidableEq

/-- The `result` object of a success envelope. -/
structure ResultData where
  phrase_id : String
  source_text : String
  detected_language : String
  language_confidence : ℚ
  audio_url : Option String
  audio_data : Option String
  breakdown : Option Breakdown
deriving DecidableEq

/-- A webhook POST body: a success envelope carries `result` and
`audio_only`, an error envelope carries `error`. -/
structure Post where
  phrase_id : String
  success : Bool
  result : Option ResultData
  audio_only : Option Bool
  error : Option String
deriving DecidableEq

structure Job where
  phrase_id : String
  source_type : SourceType
  file_url : Option String
  source_text : Option String
  language : Option String
  audio_only : Bool
deriving DecidableEq

structure Backends where
  transcribe : Option String → Except String TranscribeResult
  ocr : Option String → Except String OcrResult
  breakdown : String → String → Except String Breakdown
  tts : String → String → Except String String
  post : Post → Except String Unit

/-- The record of one `process_upload` execution. -/
structure Run where
  posts : List Post
  extraction_invoked : Bool
  breakdown_invoked : Bool
  tts_invoked : Bool
  error_delivery : Option (Except String Unit)
  outcome : Option String

/-- Python `a or b` on an optional string and a string default. -/
def pyOr (a : Option String) (b : String) : String :=
  match a with
  | some s => if s = "" then b else s
  | none => b

/-- The whisper-language mapping loop in `process_upload`: the first
registry entry whose whisper names contain the lowercased detected
language wins; an unmatched name passes through unchanged. -/
def whisperMapLanguage (detected : String) : String :=
  match LANGUAGE_REGISTRY.find?
      (fun p => (p.2.whisper_names.map pyLower).contains (pyLower detected)) with
  | some p => p.1
  | none => detected

/-- Step 1 of `process_upload`: dispatch on the source type, returning the
extracted text, the detected language and the confidence. -/
def extractStage (job : Job) (be : Backends) : Except String (String × String × ℚ) :=
  match job.source_type with
  | .audio =>
    match be.transcribe job.file_url with
    | .error e => .error e
    | .ok r =>
      let detected0 := pyOr job.language r.language
      let detected := if detected0 ≠ "" then whisperMapLanguage detected0 else detected0
      .ok (r.text, detected, r.confidence)
  | .image =>
    match be.ocr job.file_url with
    | .error e => .error e
    | .ok r => .ok (r.text, pyOr job.language (pyOr r.language "ru"), r.confidence)
  | .text => .ok (job.source_text.getD "", pyOr job.language "ru", 1.0)

/-- The error envelope built in the `except` block of `process_upload`. -/
def errorPost (phrase_id : String) (e : String) : Post :=
  { phrase_id := phrase_id, success := false, result := none,
    audio_only := none, error := some e }

/-- The `except` block of `process_upload`: deliver the error envelope
once (a delivery failure is only logged) and re-raise the original
error. -/
def mkFailure (job : Job) (be : Backends) (e : String) (prior : List Post)
    (bInv tInv : Bool) : Run :=
  { posts := prior ++ [errorPost job.phrase_id e],
    extraction_invoked := true,
    breakdown_invoked := bInv,
    tts_invoked := tInv,
    error_delivery := some (be.post (errorPost job.phrase_id e)),
    outcome := some e }

/-- The POST of a success envelope and its aftermath: a successful POST
finishes the run, a failed one falls into the except block. -/
def postAndFinish (job : Job) (be : Backends) (sp : Post) (bInv tInv : Bool) : Run :=
  match be.post sp with
  | .ok _ =>
    { posts := [sp], extraction_invoked := true, breakdown_invoked := bInv,
      tts_invoked := tInv, error_delivery := none, outcome := none }
  | .error e => mkFailure job be e [sp] bInv tInv

/-- Step 4 of `process_upload`: assemble the result payload and POST it. -/
def deliverStep (job : Job) (be : Backends) (extracted detected : String)
    (confidence : ℚ) (bd : Option Breakdown) (bInv tInv : Bool)
    (audio_b64 : Option String) : Run :=
  postAndFinish job be
    { phrase_id := job.phrase_id, success := true,
      result := some
        { phrase_id := job.phrase_id,
          source_text := extracted,
          detected_language := detected,
          language_confidence := confidence,
          audio_url := if job.source_type = SourceType.audio then job.file_url else none,
          audio_data := audio_b64,
          breakdown := bd },
      audio_only := some job.audio_only, error := none }
    bInv tInv

/-- Step 3 of `process_upload`: TTS runs for image and text sources only
(an audio source already carries its own audio). -/
def ttsStep (job : Job) (be : Backends) (extracted detected : String)
    (confidence : ℚ) (bd : Option Breakdown) (bInv : Bool) : Run :=
  match job.source_type with
  | .audio => deliverStep job be extracted detected confidence bd bInv false none
  | _ =>
    match be.tts extracted detected with
    | .error e => mkFailure job be e [] bInv true
    | .ok audio => deliverStep job be extracted detected confidence bd bInv true (some audio)

/-- `process_upload` in app.py as a pure function of the job and the
abstract backends. -/
def process_upload (job : Job) (be : Backends) : Run :=
  match extractStage job be with
  | .error e => mkFailure job be e [] false false
  | .ok (t, detected, confidence) =>
    if pyStrip t = "" then
      mkFailure job be "No text extracted from input" [] false false
    else
      let extracted := pyStrip t
      if job.audio_only then
        ttsStep job be extracted detected confidence none false
      else
        match be.breakdown extracted detected with
        | .error e => mkFailure job be e [] true false
        | .ok b => ttsStep job be extracted detected confidence (some b) true

/-! ## Claim C7 -/

lemma attempt_ok_fields {resp : LLMResponse} {o : LLMObject}
    (h : attemptOutcome resp = Except.ok o) : hasRequiredFields o = true := by
  cases resp with
  | parsed o0 =>
    have h2 : (if hasRequiredFields o0 = true then (Except.ok o0 : Except String LLMObject)
        else Except.error "Missing required fields in response") = Except.ok o := h
    by_cases hf : hasRequiredFields o0 = true
    · rw [if_pos hf] at h2
      injection h2 with h1
      rw [← h1]
      exact hf
    · rw [if_neg hf] at h2
      exact Except.noConfusion h2
  | parseFailure m => exact Except.noConfusion h
  | raised m => exact Except.noConfusion h

lemma finalRaise_ok_fields {resp : LLMResponse} {o : LLMObject}
    (h : finalRaise resp = Except.ok o) : hasRequiredFields o = true := by
  cases resp with
  | parsed o0 =>
    have h2 : (if hasRequiredFields o0 = true then (Except.ok o0 : Except String LLMObject)
        else Except.error "Missing required fields in response") = Except.ok o := h
    by_cases hf : hasRequiredFields o0 = true
    · rw [if_pos hf] at h2
      injection h2 with h1
      rw [← h1]
      exact hf
    · rw [if_neg hf] at h2
      exact Except.noConfusion h2
  | parseFailure m => exact Except.noConfusion h
  | raised m => exact Except.noConfusion h

lemma finalRaise_isOk (resp : LLMResponse) :
    (finalRaise resp).isOk = (attemptOutcome resp).isOk := by
  cases resp <;> rfl

/-- Claim C7: breakdown generation returns an object only when it has all
four required fields (never a partial result); when every one of the
three attempts fails, the loop makes exactly three attempts and fails
with the error of the last attempt. -/
theorem ankiC7 (r : Fin 3 → LLMResponse) :
    (∀ o, generate_breakdown_model r = Except.ok o → hasRequiredFields o = true)
    ∧ ((∀ i : Fin 3, (attemptOutcome (r i)).isOk = false) →
        generate_breakdown_model r = finalRaise (r 2)
          ∧ (generate_breakdown_model r).isOk = false) := by
  constructor
  · intro o ho
    unfold generate_breakdown_model at ho
    cases h0 : attemptOutcome (r 0) with
    | ok o0 =>
      rw [h0] at ho
      have ho2 : (Except.ok o0 : Except String LLMObject) = Except.ok o := ho
      injection ho2 with h1
      rw [← h1]
      exact attempt_ok_fields h0
    | error e0 =>
      rw [h0] at ho
      cases h1 : attemptOutcome (r 1) with
      | ok o1 =>
        rw [h1] at ho
        have ho2 : (Except.ok o1 : Except String LLMObject) = Except.ok o := ho
        injection ho2 with h2
        rw [← h2]
        exact attempt_ok_fields h1
      | error e1 =>
        rw [h1] at ho
        have ho2 : finalRaise (r 2) = Except.ok o := ho
        exact finalRaise_ok_fields ho2
  · intro hall
    have hgbm : generate_breakdown_model r = finalRaise (r 2) := by
      unfold generate_breakdown_model
      cases h0 : attemptOutcome (r 0) with
      | ok o0 =>
        have hc := hall 0
        rw [h0] at hc
        simp [Except.isOk, Except.toBool] at hc
      | error e0 =>
        cases h1 : attemptOutcome (r 1) with
        | ok o1 =>
          have hc := hall 1
          rw [h1] at hc
          simp [Except.isOk, Except.toBool] at hc
        | error e1 => rfl
    refine ⟨hgbm, ?_⟩
    rw [hgbm, finalRaise_isOk]
    exact hall 2

/-- The three attempt responses for the C7 witness: every attempt is a
JSON parse failure. -/
def respC7 : Fin 3 → LLMResponse := fun _ => LLMResponse.parseFailure "bad"

/-- Claim C7 witness: with three parse failures every attempt fails, the
loop result is the wrapped error of the last attempt, and no object is
returned. -/
theorem ankiC7_witness :
    (∀ i : Fin 3, (attemptOutcome (respC7 i)).isOk = false)
    ∧ generate_breakdown_model respC7 = finalRaise (respC7 2)
    ∧ (generate_breakdown_model respC7).isOk = false :=
  ⟨by decide, ((ankiC7 respC7).2 (by decide)).1, ((ankiC7 respC7).2 (by decide)).2⟩

/-! ## Pipeline helper lemmas -/

lemma errorPost_success (pid e : String) : (errorPost pid e).success = false := rfl

lemma errorPost_result (pid e : String) : (errorPost pid e).result = none := rfl

lemma mkFailure_posts (job : Job) (be : Backends) (e : String) (prior : List Post)
    (bInv tInv : Bool) (p : Post)
    (hp : p ∈ (mkFailure job be e prior bInv tInv).posts) :
    p ∈ prior ∨ p = errorPost job.phrase_id e := by
  unfold mkFailure at hp
  simpa using hp

lemma postAndFinish_posts (job : Job) (be : Backends) (sp : Post) (bInv tInv : Bool)
    (p : Post) (hp : p ∈ (postAndFinish job be sp bInv tInv).posts) :
    p = sp ∨ (p.success = false ∧ p.result = none) := by
  unfold postAndFinish at hp
  cases hps : be.post sp with
  | ok u =>
    rw [hps] at hp
    have hp2 : p ∈ [sp] := hp
    exact Or.inl (by simpa using hp2)
  | error e =>
    rw [hps] at hp
    have hp2 : p ∈ (mkFailure job be e [sp] bInv tInv).posts := hp
    rcases mkFailure_posts job be e [sp] bInv tInv p hp2 with h1 | h1
    · exact Or.inl (by simpa using h1)
    · exact Or.inr (by rw [h1]; exact ⟨rfl, rfl⟩)

lemma postAndFinish_flags (job : Job) (be : Backends) (sp : Post) (bInv tInv : Bool) :
    (postAndFinish job be sp bInv tInv).breakdown_invoked = bInv
    ∧ (postAndFinish job be sp bInv tInv).extraction_invoked = true
    ∧ (postAndFinish job be sp bInv tInv).tts_invoked = tInv := by
  unfold postAndFinish
  cases be.post sp with
  | ok u => exact ⟨rfl, rfl, rfl⟩
  | error e => exact ⟨rfl, rfl, rfl⟩

lemma postAndFinish_outcome_some (job : Job) (be : Backends) (sp : Post) (bInv tInv : Bool)
    (e : String) (h : (postAndFinish job be sp bInv tInv).outcome = some e) :
    postAndFinish job be sp bInv tInv = mkFailure job be e [sp] bInv tInv := by
  unfold postAndFinish at h ⊢
  revert h
  cases be.post sp with
  | ok u =>
    intro h
    exact Option.noConfusion h
  | error e2 =>
    intro h
    have he : some e2 = some e := h
    injection he with he2
    rw [← he2]

lemma ttsStep_posts (job : Job) (be : Backends) (extracted detected : String)
    (confidence : ℚ) (bd : Option Breakdown) (bInv : Bool) (p : Post)
    (hp : p ∈ (ttsStep job be extracted detected confidence bd bInv).posts)
    (rd : ResultData) (hrd : p.result = some rd) :
    rd.breakdown = bd ∧ rd.detected_language = detected ∧ rd.source_text = extracted := by
  unfold ttsStep at hp
  have hmain : ∀ (tInv : Bool) (ab : Option String),
      p ∈ (deliverStep job be extracted detected confidence bd bInv tInv ab).posts →
        rd.breakdown = bd ∧ rd.detected_language = detected ∧ rd.source_text = extracted := by
    intro tInv ab hp2
    unfold deliverStep at hp2
    rcases postAndFinish_posts _ _ _ _ _ _ hp2 with h1 | h1
    · rw [h1] at hrd
      have hrd2 := hrd
      injection hrd2 with h2
      rw [← h2]
      exact ⟨rfl, rfl, rfl⟩
    · rw [h1.2] at hrd
      exact Option.noConfusion hrd
  revert hp
  cases job.source_type with
  | audio =>
    intro hp
    exact hmain false none hp
  | image =>
    cases be.tts extracted detected with
    | error e =>
      intro hp
      rcases mkFailure_posts _ _ _ _ _ _ _ hp with h1 | h1
      · exact absurd h1 (List.not_mem_nil p)
      · rw [h1] at hrd
        exact Option.noConfusion hrd
    | ok audio =>
      intro hp
      exact hmain true (some audio) hp
  | text =>
    cases be.tts extracted detected with
    | error e =>
      intro hp
      rcases mkFailure_posts _ _ _ _ _ _ _ hp with h1 | h1
      · exact absurd h1 (List.not_mem_nil p)
      · rw [h1] at hrd
        exact Option.noConfusion hrd
    | ok audio =>
      intro hp
      exact hmain true (some audio) hp

lemma ttsStep_flags (job : Job) (be : Backends) (extracted detected : String)
    (confidence : ℚ) (bd : Option Breakdown) (bInv : Bool) :
    (ttsStep job be extracted detected confidence bd bInv).breakdown_invoked = bInv
    ∧ (ttsStep job be extracted detected confidence bd bInv).extraction_invoked = true
    ∧ ((ttsStep job be extracted detected confidence bd bInv).outcome = none →
        job.source_type ≠ SourceType.audio →
        (ttsStep job be extracted detected confidence bd bInv).tts_invoked = true) := by
  unfold ttsStep
  cases job.source_type with
  | audio =>
    refine ⟨(postAndFinish_flags _ _ _ _ _).1, (postAndFinish_flags _ _ _ _ _).2.1, ?_⟩
    intro _ hcontra
    exact absurd rfl hcontra
  | image =>
    cases be.tts extracted detected with
    | error e =>
      exact ⟨rfl, rfl, fun ho _ => Option.noConfusion ho⟩
    | ok audio =>
      exact ⟨(postAndFinish_flags _ _ _ _ _).1, (postAndFinish_flags _ _ _ _ _).2.1,
        fun _ _ => (postAndFinish_flags _ _ _ _ _).2.2⟩
  | text =>
    cases be.tts extracted detected with
    | error e =>
      exact ⟨rfl, rfl, fun ho _ => Option.noConfusion ho⟩
    | ok audio =>
      exact ⟨(postAndFinish_flags _ _ _ _ _).1, (postAndFinish_flags _ _ _ _ _).2.1,
        fun _ _ => (postAndFinish_flags _ _ _ _ _).2.2⟩

lemma ttsStep_outcome_some (job : Job) (be : Backends) (extracted detected : String)
    (confidence : ℚ) (bd : Option Breakdown) (bInv : Bool) (e : String)
    (h : (ttsStep job be extracted detected confidence bd bInv).outcome = some e) :
    ∃ prior bInv2 tInv, ttsStep job be extracted detected confidence bd bInv
        = mkFailure job be e prior bInv2 tInv ∧ ∀ p ∈ prior, p.success = true := by
  unfold ttsStep at h ⊢
  have hmain : ∀ (tInv : Bool) (ab : Option String),
      (deliverStep job be extracted detected confidence bd bInv tInv ab).outcome = some e →
      ∃ prior bInv2 tInv2, deliverStep job be extracted detected confidence bd bInv tInv ab
          = mkFailure job be e prior bInv2 tInv2 ∧ ∀ p ∈ prior, p.success = true := by
    intro tInv ab h2
    unfold deliverStep at h2 ⊢
    refine ⟨_, bInv, tInv, postAndFinish_outcome_some _ _ _ _ _ _ h2, ?_⟩
    intro p hp
    rw [List.mem_singleton] at hp
    rw [hp]
  revert h
  cases job.source_type with
  | audio =>
    intro h
    exact hmain false none h
  | image =>
    cases be.tts extracted detected with
    | error e2 =>
      intro h
      have he : some e2 = some e := h
      injection he with he2
      rw [← he2]
      exact ⟨[], bInv, true, rfl, by simp⟩
    | ok audio =>
      intro h
      exact hmain true (some audio) h
  | text =>
    cases be.tts extracted detected with
    | error e2 =>
      intro h
      have he : some e2 = some e := h
      injection he with he2
      rw [← he2]
      exact ⟨[], bInv, true, rfl, by simp⟩
    | ok audio =>
      intro h
      exact hmain true (some audio) h

lemma process_upload_result (job : Job) (be : Backends) (p : Post)
    (hp : p ∈ (process_upload job be).posts) (rd : ResultData) (hrd : p.result = some rd) :
    ∃ t detected confidence,
      extractStage job be = Except.ok (t, detected, confidence)
      ∧ rd.detected_language = detected
      ∧ (job.audio_only = true → rd.breakdown = none) := by
  unfold process_upload at hp
  revert hp
  cases hE : extractStage job be with
  | error e =>
    intro hp
    rcases mkFailure_posts _ _ _ _ _ _ _ hp with h1 | h1
    · exact absurd h1 (List.not_mem_nil p)
    · rw [h1] at hrd
      exact Option.noConfusion hrd
  | ok v =>
    obtain ⟨t, detected, confidence⟩ := v
    dsimp only
    by_cases ht : pyStrip t = ""
    · rw [if_pos ht]
      intro hp
      rcases mkFailure_posts _ _ _ _ _ _ _ hp with h1 | h1
      · exact absurd h1 (List.not_mem_nil p)
      · rw [h1] at hrd
        exact Option.noConfusion hrd
    · rw [if_neg ht]
      by_cases ha : job.audio_only
      · rw [if_pos ha]
        intro hp
        have hres := ttsStep_posts job be (pyStrip t) detected confidence none false p hp rd hrd
        exact ⟨t, detected, confidence, rfl, hres.2.1, fun _ => hres.1⟩
      · rw [if_neg ha]
        cases be.breakdown (pyStrip t) detected with
        | error e =>
          intro hp
          rcases mkFailure_posts _ _ _ _ _ _ _ hp with h1 | h1
          · exact absurd h1 (List.not_mem_nil p)
          · rw [h1] at hrd
            exact Option.noConfusion hrd
        | ok b =>
          intro hp
          have hres := ttsStep_posts job be (pyStrip t) detected confidence (some b) true p hp rd hrd
          exact ⟨t, detected, confidence, rfl, hres.2.1, fun hcontra => absurd hcontra ha⟩

lemma process_upload_flags (job : Job) (be : Backends) (h : job.audio_only = true) :
    (process_upload job be).breakdown_invoked = false
    ∧ (process_upload job be).extraction_invoked = true
    ∧ ((process_upload job be).outcome = none → job.source_type ≠ SourceType.audio →
        (process_upload job be).tts_invoked = true) := by
  unfold process_upload
  cases extractStage job be with
  | error e => exact ⟨rfl, rfl, fun ho _ => Option.noConfusion ho⟩
  | ok v =>
    obtain ⟨t, detected, confidence⟩ := v
    dsimp only
    by_cases ht : pyStrip t = ""
    · rw [if_pos ht]
      exact ⟨rfl, rfl, fun ho _ => Option.noConfusion ho⟩
    · rw [if_neg ht, if_pos h]
      exact ttsStep_flags job be (pyStrip t) detected confidence none false

lemma process_upload_outcome_some (job : Job) (be : Backends) (e : String)
    (h : (process_upload job be).outcome = some e) :
    ∃ prior bInv tInv, process_upload job be = mkFailure job be e prior bInv tInv
      ∧ ∀ p ∈ prior, p.success = true := by
  unfold process_upload at h ⊢
  revert h
  cases extractStage job be with
  | error e2 =>
    intro h
    have he : some e2 = some e := h
    injection he with he2
    rw [← he2]
    exact ⟨[], false, false, rfl, by simp⟩
  | ok v =>
    obtain ⟨t, detected, confidence⟩ := v
    dsimp only
    by_cases ht : pyStrip t = ""
    · rw [if_pos ht]
      intro h
      have he : some "No text extracted from input" = some e := h
      injection he with he2
      rw [← he2]
      exact ⟨[], false, false, rfl, by simp⟩
    · rw [if_neg ht]
      by_cases ha : job.audio_only
      · rw [if_pos ha]
        intro h
        exact ttsStep_outcome_some job be (pyStrip t) detected confidence none false e h
      · rw [if_neg ha]
        cases be.breakdown (pyStrip t) detected with
        | error e2 =>
          intro h
          have he : some e2 = some e := h
          injection he with he2
          rw [← he2]
          exact ⟨[], true, false, rfl, by simp⟩
        | ok b =>
          intro h
          exact ttsStep_outcome_some job be (pyStrip t) detected confidence (some b) true e h

lemma extract_detected (job : Job) (be : Backends) (t detected : String) (confidence : ℚ)
    (hE : extractStage job be = Except.ok (t, detected, confidence))
    (hint : String) (hL : job.language = some hint) (hne : hint ≠ "") :
    detected = (match job.source_type with
      | SourceType.audio => whisperMapLanguage hint
      | SourceType.image => hint
      | SourceType.text => hint) := by
  have hpyOr : ∀ b, pyOr job.language b = hint := by
    intro b
    rw [hL]
    unfold pyOr
    dsimp only
    rw [if_neg hne]
  unfold extractStage at hE
  revert hE
  cases job.source_type with
  | audio =>
    cases be.transcribe job.file_url with
    | error e =>
      intro hE
      exact Except.noConfusion hE
    | ok r =>
      intro hE
      have h2 : (Except.ok (r.text,
          (if pyOr job.language r.language ≠ "" then
            whisperMapLanguage (pyOr job.language r.language)
           else pyOr job.language r.language), r.confidence)
          : Except String (String × String × ℚ)) = Except.ok (t, detected, confidence) := hE
      injection h2 with h3
      rw [Prod.mk.injEq, Prod.mk.injEq] at h3
      obtain ⟨-, h3b, -⟩ := h3
      simp only [hpyOr] at h3b
      rw [if_pos hne] at h3b
      exact h3b.symm
  | image =>
    cases be.ocr job.file_url with
    | error e =>
      intro hE
      exact Except.noConfusion hE
    | ok r =>
      intro hE
      have h2 : (Except.ok (r.text, pyOr job.language (pyOr r.language "ru"), r.confidence)
          : Except String (String × String × ℚ)) = Except.ok (t, detected, confidence) := hE
      injection h2 with h3
      rw [Prod.mk.injEq, Prod.mk.injEq] at h3
      obtain ⟨-, h3b, -⟩ := h3
      rw [hpyOr] at h3b
      exact h3b.symm
  | text =>
    intro hE
    have h2 : (Except.ok (job.source_text.getD "", pyOr job.language "ru", 1.0)
        : Except String (String × String × ℚ)) = Except.ok (t, detected, confidence) := hE
    injection h2 with h3
    rw [Prod.mk.injEq, Prod.mk.injEq] at h3
    obtain ⟨-, h3b, -⟩ := h3
    rw [hpyOr] at h3b
    exact h3b.symm

lemma postAndFinish_override_outcome (job : Job)
    (btr : Option String → Except String TranscribeResult)
    (bocr : Option String → Except String OcrResult)
    (bbd : String → String → Except String Breakdown)
    (btts : String → String → Except String String)
    (bpost : Post → Except String Unit) (w : String) (sp : Post) (hsp : sp.success = true)
    (bInv tInv : Bool) :
    (postAndFinish job ⟨btr, bocr, bbd, btts,
        fun p => if p.success then bpost p else Except.error w⟩ sp bInv tInv).outcome
      = (postAndFinish job ⟨btr, bocr, bbd, btts, bpost⟩ sp bInv tInv).outcome := by
  unfold postAndFinish
  dsimp only
  rw [if_pos hsp]
  cases bpost sp with
  | ok u => rfl
  | error e => rfl

lemma ttsStep_override_outcome (job : Job)
    (btr : Option String → Except String TranscribeResult)
    (bocr : Option String → Except String OcrResult)
    (bbd : String → String → Except String Breakdown)
    (btts : String → String → Except String String)
    (bpost : Post → Except String Unit) (w : String) (extracted detected : String)
    (confidence : ℚ) (bd : Option Breakdown) (bInv : Bool) :
    (ttsStep job ⟨btr, bocr, bbd, btts,
        fun p => if p.success then bpost p else Except.error w⟩
        extracted detected confidence bd bInv).outcome
      = (ttsStep job ⟨btr, bocr, bbd, btts, bpost⟩
          extracted detected confidence bd bInv).outcome := by
  unfold ttsStep deliverStep
  cases job.source_type with
  | audio => exact postAndFinish_override_outcome job btr bocr bbd btts bpost w _ rfl bInv false
  | image =>
    dsimp only
    cases btts extracted detected with
    | error e => rfl
    | ok audio => exact postAndFinish_override_outcome job btr bocr bbd btts bpost w _ rfl bInv true
  | text =>
    dsimp only
    cases btts extracted detected with
    | error e => rfl
    | ok audio => exact postAndFinish_override_outcome job btr bocr bbd btts bpost w _ rfl bInv true

lemma process_upload_override (job : Job) (be : Backends) (w : String) :
    (process_upload job
        { be with post := fun p => if p.success then be.post p else Except.error w }).outcome
      = (process_upload job be).outcome := by
  obtain ⟨btr, bocr, bbd, btts, bpost⟩ := be
  show (process_upload job ⟨btr, bocr, bbd, btts,
      fun p => if p.success then bpost p else Except.error w⟩).outcome
    = (process_upload job ⟨btr, bocr, bbd, btts, bpost⟩).outcome
  unfold process_upload
  rw [show extractStage job ⟨btr, bocr, bbd, btts,
      fun p => if p.success then bpost p else Except.error w⟩
      = extractStage job ⟨btr, bocr, bbd, btts, bpost⟩ from rfl]
  cases extractStage job ⟨btr, bocr, bbd, btts, bpost⟩ with
  | error e => rfl
  | ok v =>
    obtain ⟨t, detected, confidence⟩ := v
    dsimp only
    by_cases ht : pyStrip t = ""
    · rw [if_pos ht, if_pos ht]
      rfl
    · rw [if_neg ht, if_neg ht]
      by_cases ha : job.audio_only
      · rw [if_pos ha, if_pos ha]
        exact ttsStep_override_outcome job btr bocr bbd btts bpost w
          (pyStrip t) detected confidence none false
      · rw [if_neg ha, if_neg ha]
        cases bbd (pyStrip t) detected with
        | error e => rfl
        | ok b =>
          exact ttsStep_override_outcome job btr bocr bbd btts bpost w
            (pyStrip t) detected confidence (some b) true

/-! ## Claim C8 -/

/-- Claim C8: a job with audioOnly set never invokes breakdown
generation, its success envelope result carries no breakdown fields,
extraction still runs (the extraction call is made in every execution),
and for a successfully completed non-audio job speech synthesis still
runs. -/
theorem ankiC8 (job : Job) (be : Backends) (h : job.audio_only = true) :
    (process_upload job be).breakdown_invoked = false
    ∧ (process_upload job be).extraction_invoked = true
    ∧ (∀ p ∈ (process_upload job be).posts, ∀ rd, p.result = some rd → rd.breakdown = none)
    ∧ ((process_upload job be).outcome = none → job.source_type ≠ SourceType.audio →
        (process_upload job be).tts_invoked = true) := by
  obtain ⟨h1, h2, h3⟩ := process_upload_flags job be h
  refine ⟨h1, h2, ?_, h3⟩
  intro p hp rd hrd
  obtain ⟨t, detected, confidence, -, -, hbd⟩ := process_upload_result job be p hp rd hrd
  exact hbd h

/-- Concrete backends for the pipeline witnesses: every call succeeds. -/
def beW : Backends :=
  { transcribe := fun _ =>
      Except.ok { text := "привет", language := "russian", confidence := 0.9 },
    ocr := fun _ => Except.ok { text := "привет", language := some "ru", confidence := 0.9 },
    breakdown := fun _ _ => Except.ok
      { transliteration := "privet", translation := "hi",
        grammar_notes := "notes", vocab_breakdown := "entries" },
    tts := fun _ _ => Except.ok "AUDIO",
    post := fun _ => Except.ok () }

/-- Concrete audio-only text job for the C8 witness. -/
def jobC8 : Job :=
  { phrase_id := "p1", source_type := SourceType.text, file_url := none,
    source_text := some "привет", language := some "ru", audio_only := true }

/-- Claim C8 witness: the theorem applied to a concrete audio-only job
with all-success backends. -/
theorem ankiC8_witness :
    (process_upload jobC8 beW).breakdown_invoked = false
    ∧ (process_upload jobC8 beW).extraction_invoked = true
    ∧ (∀ p ∈ (process_upload jobC8 beW).posts, ∀ rd, p.result = some rd → rd.breakdown = none)
    ∧ ((process_upload jobC8 beW).outcome = none → jobC8.source_type ≠ SourceType.audio →
        (process_upload jobC8 beW).tts_invoked = true) :=
  ankiC8 jobC8 beW rfl

/-! ## Claim C9 -/

/-- Claim C9: whenever a pipeline run fails (re-raises an error), exactly
one error envelope, holding the phrase id, success false and that error
message, is among the webhook posts; its delivery result is only
recorded (the attempt is made exactly once through the webhook backend
and never retried); and replacing the webhook backend by one that fails
every error-envelope delivery leaves the run outcome unchanged, so a
failed error delivery does not mask the original failure. -/
theorem ankiC9 (job : Job) (be : Backends) (e : String)
    (h : (process_upload job be).outcome = some e) :
    (process_upload job be).posts.filter (fun p => !p.success)
      = [errorPost job.phrase_id e]
    ∧ (process_upload job be).error_delivery = some (be.post (errorPost job.phrase_id e))
    ∧ ∀ w, (process_upload job
        { be with post := fun p => if p.success then be.post p else Except.error w }).outcome
        = some e := by
  obtain ⟨prior, bInv, tInv, heq, hprior⟩ := process_upload_outcome_some job be e h
  refine ⟨?_, ?_, ?_⟩
  · rw [heq]
    rw [show (mkFailure job be e prior bInv tInv).posts
        = prior ++ [errorPost job.phrase_id e] from rfl]
    rw [List.filter_append]
    have h1 : prior.filter (fun p => !p.success) = [] := by
      rw [List.filter_eq_nil_iff]
      intro p hp
      rw [hprior p hp]
      simp
    rw [h1, List.nil_append]
    rfl
  · rw [heq]
    rfl
  · intro w
    exact (process_upload_override job be w).trans h

/-- Backends for the C9 witness: breakdown generation fails. -/
def beC9 : Backends := { beW with breakdown := fun _ _ => Except.error "boom" }

/-- Concrete full (not audio-only) text job for the C9 witness. -/
def jobC9 : Job :=
  { phrase_id := "p2", source_type := SourceType.text, file_url := none,
    source_text := some "привет", language := some "ru", audio_only := false }

/-- Claim C9 witness: the theorem applied to a concrete job whose
breakdown stage fails with a fixed message. -/
theorem ankiC9_witness :
    (process_upload jobC9 beC9).outcome = some "boom"
    ∧ (process_upload jobC9 beC9).posts.filter (fun p => !p.success)
        = [errorPost jobC9.phrase_id "boom"]
    ∧ (process_upload jobC9 beC9).error_delivery
        = some (beC9.post (errorPost jobC9.phrase_id "boom"))
    ∧ ∀ w, (process_upload jobC9
        { beC9 with post := fun p => if p.success then beC9.post p else Except.error w }).outcome
        = some "boom" :=
  ⟨by with_unfolding_all rfl,
   (ankiC9 jobC9 beC9 "boom" (by with_unfolding_all rfl)).1,
   (ankiC9 jobC9 beC9 "boom" (by with_unfolding_all rfl)).2.1,
   (ankiC9 jobC9 beC9 "boom" (by with_unfolding_all rfl)).2.2⟩

/-! ## Claim C10 -/

/-- Claim C10: for a job with a non-empty caller-supplied language hint,
the detected language carried in every delivered result object derives
from the hint: for audio jobs it is the whisper-alias mapping applied
to the hint, for image and text jobs it is the hint itself, never the
backend-detected language. -/
theorem ankiC10 (job : Job) (be : Backends) (hint : String)
    (hL : job.language = some hint) (hne : hint ≠ "") :
    ∀ p ∈ (process_upload job be).posts, ∀ rd, p.result = some rd →
      rd.detected_language
        = (match job.source_type with
            | SourceType.audio => whisperMapLanguage hint
            | SourceType.image => hint
            | SourceType.text => hint) := by
  intro p hp rd hrd
  obtain ⟨t, detected, confidence, hE, hdl, -⟩ := process_upload_result job be p hp rd hrd
  rw [hdl]
  exact extract_detected job be t detected confidence hE hint hL hne

/-- Concrete audio job with the hint russian for the C10 witness. -/
def jobC10 : Job :=
  { phrase_id := "p3", source_type := SourceType.audio, file_url := some "url",
    source_text := none, language := some "russian", audio_only := false }

/-- Claim C10 witness: the theorem applied to a concrete audio job whose
hint is russian, which the whisper-alias mapping sends to ru. -/
theorem ankiC10_witness :
    jobC10.language = some "russian"
    ∧ whisperMapLanguage "russian" = "ru"
    ∧ (∀ p ∈ (process_upload jobC10 beW).posts, ∀ rd, p.result = some rd →
        rd.detected_language = whisperMapLanguage "russian") :=
  ⟨rfl, by with_unfolding_all rfl, ankiC10 jobC10 beW "russian" rfl (by decide)⟩

end AnkiCapture
